import Mathlib

/-!
Verification of the EAA-Legislator compliance pipeline.

The development shallowly embeds the three core transformation stages of the
repository:

* the Mapper `mapLighthouseToEAA` (src/unnamed/part_000), which tallies
  Lighthouse audit findings into per-requirement status counters and rewrites
  each requirement's status;
* the Scorer, the `calculate-score` capability of src/index.ts (zod input
  schema at lines 178-192, scoring body at lines 193-245);
* the Report Assembler, the structured `process-results` transformation of
  src/index.ts (input validation at lines 279-287, report construction at
  lines 429-512 of the same file).

JavaScript objects iterated with `Object.entries` are modelled as association
lists in insertion order; `Record<string, T>` outputs are modelled as
functions `String → Option T`; a thrown runtime `TypeError` is modelled as
`Except.error` carrying the message of the exception.  Numbers are modelled
as `ℚ` (the scores in play are 0, 1, 0.5 and small integer weights, all exact
in doubles, and `Math.round` agrees with Mathlib's `round`, both being
floor of x + 1/2).
-/

/-- One failing element inside a Lighthouse audit's `details.items`. -/
structure AuditItem where
  nodeLabel : Option String
  selector : Option String
  explanation : Option String
  deriving DecidableEq

/-- The `details` object of a Lighthouse audit. -/
structure AuditDetails where
  items : Option (List AuditItem)
  deriving DecidableEq

/-- A Lighthouse audit finding (type `LighthouseAudit` in src/unnamed/part_000).
`score` is `number | null`, modelled as `Option ℚ`. -/
structure LighthouseAudit where
  id : String
  title : String
  description : String
  score : Option ℚ
  scoreDisplayMode : String
  details : Option AuditDetails
  deriving DecidableEq

/-- One EAA checklist requirement (type `EAARequirement` in src/unnamed/part_000). -/
structure EAARequirement where
  requirement_id : String
  description : String
  category : String
  criticality : String
  legal_reference : String
  status : String
  exemptible : Bool
  deriving DecidableEq

/-- The checklist (type `EAAGuidelines` in src/unnamed/part_000). -/
structure EAAGuidelines where
  directive : String
  requirements : List EAARequirement
  deriving DecidableEq

/-- The static `lighthouseToEAAMapping` lookup table of src/unnamed/part_000,
lines 28-47, embedded key by key. -/
def lighthouseToEAAMapping (auditId : String) : Option (List String) :=
  if auditId = "color-contrast" then some ["A1.1"]
  else if auditId = "image-alt" then some ["A1.1"]
  else if auditId = "video-caption" then some ["A1.1"]
  else if auditId = "object-alt" then some ["A1.1"]
  else if auditId = "aria-allowed-attr" then some ["A1.1"]
  else if auditId = "meta-viewport" then some ["A1.2"]
  else if auditId = "target-size" then some ["A1.2"]
  else if auditId = "focus-traps" then some ["A1.2"]
  else if auditId = "interactive-element-affordance" then some ["A1.2"]
  else if auditId = "link-name" then some ["A6.1"]
  else if auditId = "button-name" then some ["A6.1"]
  else if auditId = "form-field-multiple-labels" then some ["A6.1"]
  else if auditId = "label" then some ["A6.1"]
  else if auditId = "html-has-lang" then some ["A6.1"]
  else if auditId = "aria-required-attr" then some ["A1.1"]
  else if auditId = "aria-valid-attr-value" then some ["A1.1"]
  else if auditId = "aria-roles" then some ["A1.1"]
  else if auditId = "duplicate-id-aria" then some ["A1.1"]
  else none

/-- One per-requirement tally bucket (the `statusCounts[eaaId]` record of
src/unnamed/part_000, line 52). -/
structure StatusCounts where
  compliant : Nat
  non_compliant : Nat
  exempted : Nat
  deriving DecidableEq

/-- The mutable local state of `mapLighthouseToEAA`: the `statusCounts`
record and the `auditFix` record, both keyed by requirement id. -/
structure MapState where
  counts : String → Option StatusCounts
  auditFix : String → Option LighthouseAudit

/-- One iteration of the inner `eaaIds.forEach` loop of `mapLighthouseToEAA`
(src/unnamed/part_000, lines 60-74): create the tally entry if absent, then
increment the bucket selected by the audit's score, recording the audit in
`auditFix` when the score is 0. -/
def tallyOne (audit : LighthouseAudit) (st : MapState) (eaaId : String) : MapState :=
  let prev := (st.counts eaaId).getD ⟨0, 0, 0⟩
  if audit.score = some 1 then
    { st with counts := fun r => if r = eaaId then some { prev with compliant := prev.compliant + 1 } else st.counts r }
  else if audit.score = some 0 then
    { counts := fun r => if r = eaaId then some { prev with non_compliant := prev.non_compliant + 1 } else st.counts r,
      auditFix := fun r => if r = eaaId then some audit else st.auditFix r }
  else
    { st with counts := fun r => if r = eaaId then some { prev with exempted := prev.exempted + 1 } else st.counts r }

/-- One iteration of the outer `Object.entries(lighthouseJson).forEach` loop
(src/unnamed/part_000, lines 57-76): findings whose audit-check id is absent
from the lookup table are ignored entirely. -/
def processAudit (st : MapState) (entry : String × LighthouseAudit) : MapState :=
  match lighthouseToEAAMapping entry.1 with
  | some eaaIds => eaaIds.foldl (tallyOne entry.2) st
  | none => st

/-- The empty `statusCounts` and `auditFix` records at function entry. -/
def initialMapState : MapState := ⟨fun _ => none, fun _ => none⟩

/-- The status priority rule of src/unnamed/part_000, lines 82-90. -/
def deriveStatus (counts : StatusCounts) : String :=
  if 0 < counts.non_compliant ∧ 0 < counts.compliant then "partially_compliant"
  else if 0 < counts.non_compliant then "non_compliant"
  else if 0 < counts.compliant then "compliant"
  else "exempted"

/-- The Mapper (`mapLighthouseToEAA`, src/unnamed/part_000 lines 49-95).  The
findings object is an association list in `Object.entries` insertion order;
the JSON deep copy of the input checklist becomes a fresh structure whose
requirements are rebuilt by `List.map`, so the input is never mutated. -/
def mapLighthouseToEAA (lighthouseJson : List (String × LighthouseAudit))
    (eaaGuidelines : EAAGuidelines) :
    EAAGuidelines × (String → Option LighthouseAudit) :=
  let st := lighthouseJson.foldl processAudit initialMapState
  ({ directive := eaaGuidelines.directive,
     requirements := eaaGuidelines.requirements.map fun requirement =>
       match st.counts requirement.requirement_id with
       | some counts => { requirement with status := deriveStatus counts }
       | none => requirement },
   st.auditFix)

/-- A raw checklist whose `requirements` array may be absent (the JSON shape
the Mapper receives at runtime before any validation). -/
structure EAAGuidelinesRaw where
  directive : String
  requirements : Option (List EAARequirement)

/-- The Mapper applied to a raw checklist.  When `requirements` is absent the
JavaScript `mappedResults.requirements.forEach` at line 79 of
src/unnamed/part_000 throws a `TypeError`, so the call produces an error and
no output at all (the locally built `auditFix` is discarded). -/
def mapLighthouseToEAARaw (lighthouseJson : List (String × LighthouseAudit))
    (eaaGuidelines : EAAGuidelinesRaw) :
    Except String (EAAGuidelines × (String → Option LighthouseAudit)) :=
  match eaaGuidelines.requirements with
  | none => Except.error "TypeError: Cannot read properties of undefined (reading 'forEach')"
  | some reqs => Except.ok (mapLighthouseToEAA lighthouseJson ⟨eaaGuidelines.directive, reqs⟩)

/-- One entry of the `calculate-score` capability's `mappedResults` input. -/
structure ScoreEntry where
  requirement_id : String
  status : String
  criticality : String
  deriving DecidableEq

/-- The `criticalityMultiplier` table of src/index.ts lines 197-201 combined
with the `|| 1` default of line 208 (an absent key yields `undefined`, and
`undefined || 1` is 1). -/
def criticalityMultiplier (criticality : String) : ℚ :=
  if criticality = "HIGH" then 3
  else if criticality = "MEDIUM" then 2
  else if criticality = "LOW" then 1
  else 1

/-- The `switch (status)` of src/index.ts lines 211-224: `let score = 0`
followed by the four cases, so any status outside them keeps 0. -/
def statusValue (status : String) : ℚ :=
  if status = "compliant" then 1
  else if status = "partially_compliant" then 1 / 2
  else if status = "non_compliant" then 0
  else if status = "exempted" then 1
  else 0

/-- One iteration of the `mappedResults.forEach` accumulation of src/index.ts
lines 205-228 over the pair (totalWeightedScore, maxPossibleScore). -/
def scoreStep (acc : ℚ × ℚ) (e : ScoreEntry) : ℚ × ℚ :=
  if e.status = "pending" then acc
  else (acc.1 + statusValue e.status * criticalityMultiplier e.criticality,
        acc.2 + criticalityMultiplier e.criticality)

/-- The scoring body of the `calculate-score` capability (src/index.ts lines
193-245): accumulate, normalize when `maxPossibleScore > 0`, and
`Math.round` the result. -/
def calculateScoreRun (mappedResults : List ScoreEntry) : ℤ :=
  let totals := mappedResults.foldl scoreStep (0, 0)
  let finalScore : ℚ := if 0 < totals.2 then totals.1 / totals.2 * 100 else 0
  round finalScore

/-- The `z.enum` of statuses in the capability schema, src/index.ts lines 182-188. -/
def validStatus (s : String) : Bool :=
  s = "pending" || s = "compliant" || s = "partially_compliant" ||
    s = "non_compliant" || s = "exempted"

/-- The `z.enum` of criticalities in the capability schema, src/index.ts line 189. -/
def validCriticality (c : String) : Bool :=
  c = "HIGH" || c = "MEDIUM" || c = "LOW"

/-- The whole `calculate-score` capability: the zod schema of src/index.ts
lines 178-192 validates every entry before the body runs; a request whose
entries do not satisfy the schema is rejected (`none`) and never scored. -/
def calculateScoreCapability (mappedResults : List ScoreEntry) : Option ℤ :=
  if mappedResults.all fun e => validStatus e.status && validCriticality e.criticality then
    some (calculateScoreRun mappedResults)
  else none

/-- A trimmed requirement summary pushed to `summary.compliant`
(src/index.ts lines 460-466). -/
structure ReqSummary where
  requirement_id : String
  description : String
  category : String
  criticality : String
  legal_reference : String
  deriving DecidableEq

/-- A requirement summary with the attached issue and suggestion, pushed to
`summary.partially_compliant` (src/index.ts lines 473-481). -/
structure ReqIssueSummary where
  requirement_id : String
  description : String
  category : String
  criticality : String
  legal_reference : String
  issue : String
  suggestion : String
  deriving DecidableEq

/-- One actionable-insight record (src/index.ts lines 450-456). -/
structure ActionableInsight where
  issue : String
  failing_element : String
  selector : String
  explanation : String
  suggestion : String
  deriving DecidableEq

/-- The `summary` object of the report (src/index.ts lines 429-448). -/
structure ReportSummary where
  partially_compliant : List ReqIssueSummary
  compliant : List ReqSummary
  pending_high_criticality : List String
  pending_medium_criticality : List String
  deriving DecidableEq

/-- One entry of the report's echoed `mappedResults.requirements`
(src/index.ts lines 419-426: the six projected fields). -/
structure ReportRequirement where
  requirement_id : String
  description : String
  category : String
  criticality : String
  legal_reference : String
  status : String
  deriving DecidableEq

/-- The assembled report uploaded as `report.json` (src/index.ts lines 514-523). -/
structure Report where
  directive : String
  requirements : List ReportRequirement
  summary : ReportSummary
  actionable_insights : List ActionableInsight
  deriving DecidableEq

/-- The raw `mappedResults` member of the assembler's `complianceData`
input, whose `requirements` array may be absent. -/
structure MappedResultsRaw where
  directive : Option String
  requirements : Option (List EAARequirement)

/-- JavaScript `s || fallback` on a required string field: the empty string
is falsy, everything else is returned unchanged. -/
def jsOrStr (s fallback : String) : String :=
  if s = "" then fallback else s

/-- JavaScript `v || fallback` on an optional string field: `undefined` and
the empty string are falsy. -/
def jsOrOpt (v : Option String) (fallback : String) : String :=
  match v with
  | some s => jsOrStr s fallback
  | none => fallback

/-- The `fixData?.details?.items` optional chain (src/index.ts line 484). -/
def fixItems (fixData : LighthouseAudit) : Option (List AuditItem) :=
  match fixData.details with
  | none => none
  | some det => det.items

/-- The requirement projection built at src/index.ts lines 460-466. -/
def requirementSummary (req : EAARequirement) : ReqSummary :=
  ⟨req.requirement_id, req.description, req.category, req.criticality, req.legal_reference⟩

/-- The per-item actionable insight of src/index.ts lines 486-492. -/
def itemInsight (fixData : LighthouseAudit) (req : EAARequirement) (item : AuditItem) : ActionableInsight :=
  { issue := fixData.title ++ " (" ++ req.requirement_id ++ ")",
    failing_element := jsOrOpt item.nodeLabel "Unknown Element",
    selector := jsOrOpt item.selector "No selector available",
    explanation := jsOrOpt item.explanation "No explanation provided.",
    suggestion := jsOrStr fixData.description "Follow the WCAG guidelines for compliance." }

/-- The synthetic actionable insight of src/index.ts lines 495-501, emitted
when the finding carries no detail items. -/
def syntheticInsight (fixData : LighthouseAudit) (req : EAARequirement) : ActionableInsight :=
  { issue := fixData.title ++ " (" ++ req.requirement_id ++ ")",
    failing_element := "No specific elements identified.",
    selector := "N/A",
    explanation := "No specific failing elements provided.",
    suggestion := jsOrStr fixData.description "Follow accessibility guidelines for best practices." }

/-- One iteration of the `mappedResults.requirements.forEach` of src/index.ts
lines 458-512 over the accumulated (summary, actionableInsights) state.  In
the `partially_compliant`/`non_compliant` branch with no detail items, the
template literal at line 496 reads `fixData.title` without a guard, so a
requirement with no recorded finding throws a `TypeError`, modelled as
`Except.error`. -/
def processRequirement (auditFix : String → Option LighthouseAudit)
    (acc : ReportSummary × List ActionableInsight) (req : EAARequirement) :
    Except String (ReportSummary × List ActionableInsight) :=
  let fixData := auditFix req.requirement_id
  if req.status = "compliant" then
    Except.ok ({ acc.1 with compliant := acc.1.compliant ++ [requirementSummary req] }, acc.2)
  else if req.status = "partially_compliant" ∨ req.status = "non_compliant" then
    let issue := match fixData with
      | some fd => jsOrStr fd.title "Issue not specified."
      | none => "Issue not specified."
    let suggestion := match fixData with
      | some fd => jsOrStr fd.description "No specific fix available."
      | none => "No specific fix available."
    let summary1 : ReportSummary :=
      { acc.1 with partially_compliant := acc.1.partially_compliant ++
          [⟨req.requirement_id, req.description, req.category, req.criticality,
            req.legal_reference, issue, suggestion⟩] }
    match fixData with
    | some fd =>
      match fixItems fd with
      | some items =>
        if 0 < items.length then
          Except.ok (summary1, acc.2 ++ items.map (itemInsight fd req))
        else
          Except.ok (summary1, acc.2 ++ [syntheticInsight fd req])
      | none => Except.ok (summary1, acc.2 ++ [syntheticInsight fd req])
    | none => Except.error "TypeError: Cannot read properties of undefined (reading 'title')"
  else if req.status = "pending" then
    if req.criticality = "HIGH" then
      Except.ok ({ acc.1 with pending_high_criticality := acc.1.pending_high_criticality ++ [req.requirement_id] }, acc.2)
    else if req.criticality = "MEDIUM" then
      Except.ok ({ acc.1 with pending_medium_criticality := acc.1.pending_medium_criticality ++ [req.requirement_id] }, acc.2)
    else
      Except.ok acc
  else
    Except.ok acc

/-- The six-field projection of src/index.ts lines 419-426. -/
def projectRequirement (req : EAARequirement) : ReportRequirement :=
  ⟨req.requirement_id, req.description, req.category, req.criticality,
    req.legal_reference, req.status⟩

/-- The empty summary object of src/index.ts lines 429-448. -/
def emptySummary : ReportSummary := ⟨[], [], [], []⟩

/-- The Report Assembler, the structured `process-results` transformation of
src/index.ts: validate that the `requirements` array is present (lines
285-287, returning the descriptive error string otherwise), then walk the
requirements building the summary and the flat insight list, and assemble
the report object of lines 514-523. -/
def processResults (mappedResults : Option MappedResultsRaw)
    (auditFix : String → Option LighthouseAudit) : Except String Report :=
  match mappedResults with
  | none => Except.error "Error: 'requirements' field is missing or malformed."
  | some mr =>
    match mr.requirements with
    | none => Except.error "Error: 'requirements' field is missing or malformed."
    | some reqs =>
      match reqs.foldlM (processRequirement auditFix) (emptySummary, []) with
      | Except.error e => Except.error e
      | Except.ok state =>
        Except.ok { directive := jsOrOpt mr.directive "Unknown Directive",
                    requirements := reqs.map projectRequirement,
                    summary := state.1,
                    actionable_insights := state.2 }

/-- The status-value table as the specification words it: compliant and
exempted count 1, partially_compliant counts one half, non_compliant 0. -/
def statusValueSpec (status : String) : ℚ :=
  if status = "compliant" then 1
  else if status = "exempted" then 1
  else if status = "partially_compliant" then 1 / 2
  else 0

/-- The numerator of the specification's weighted average: pending entries
are excluded, the rest contribute status value times weight. -/
def specNumerator (entries : List ScoreEntry) : ℚ :=
  ((entries.filter fun e => !(decide (e.status = "pending"))).map
    fun e => statusValueSpec e.status * criticalityMultiplier e.criticality).sum

/-- The numerator as the code computes it, with the code's status switch. -/
def codeNumerator (entries : List ScoreEntry) : ℚ :=
  ((entries.filter fun e => !(decide (e.status = "pending"))).map
    fun e => statusValue e.status * criticalityMultiplier e.criticality).sum

/-- The denominator of the weighted average: the summed weights of the
non-pending entries. -/
def scoreDenominator (entries : List ScoreEntry) : ℚ :=
  ((entries.filter fun e => !(decide (e.status = "pending"))).map
    fun e => criticalityMultiplier e.criticality).sum

lemma criticalityMultiplier_nonneg (c : String) : 0 ≤ criticalityMultiplier c := by
  unfold criticalityMultiplier
  split_ifs <;> norm_num

lemma scoreDenominator_nonneg (entries : List ScoreEntry) : 0 ≤ scoreDenominator entries := by
  unfold scoreDenominator
  apply List.sum_nonneg
  intro x hx
  obtain ⟨e, _, rfl⟩ := List.mem_map.mp hx
  exact criticalityMultiplier_nonneg _

lemma foldl_scoreStep (entries : List ScoreEntry) : ∀ a b : ℚ,
    entries.foldl scoreStep (a, b) = (a + codeNumerator entries, b + scoreDenominator entries) := by
  induction entries with
  | nil => intro a b; simp [codeNumerator, scoreDenominator]
  | cons e es ih =>
    intro a b
    by_cases h : e.status = "pending"
    · simp [scoreStep, h, codeNumerator, scoreDenominator, List.filter_cons, ih a b]
    · simp only [List.foldl_cons, scoreStep, if_neg h, ih]
      simp [codeNumerator, scoreDenominator, List.filter_cons, h, add_assoc]

/-- The scoring body equals the weighted-average formula of the spec, with
the code's own status table. -/
lemma calculateScoreRun_formula (entries : List ScoreEntry) :
    calculateScoreRun entries =
      if scoreDenominator entries = 0 then 0
      else round (codeNumerator entries / scoreDenominator entries * 100) := by
  unfold calculateScoreRun
  rw [foldl_scoreStep entries 0 0]
  simp only [zero_add]
  by_cases h : scoreDenominator entries = 0
  · simp [h]
  · have hpos : 0 < scoreDenominator entries :=
      lt_of_le_of_ne (scoreDenominator_nonneg entries) (Ne.symm h)
    simp [h, hpos]

lemma statusValue_eq_spec (s : String) (hs : validStatus s = true) :
    statusValue s = statusValueSpec s := by
  unfold validStatus at hs
  simp only [Bool.or_eq_true, decide_eq_true_eq] at hs
  rcases hs with (((h | h) | h) | h) | h <;> subst h <;> rfl

lemma codeNumerator_eq_spec (entries : List ScoreEntry)
    (h : ∀ e ∈ entries, validStatus e.status = true) :
    codeNumerator entries = specNumerator entries := by
  unfold codeNumerator specNumerator
  congr 1
  apply List.map_congr_left
  intro e he
  rw [statusValue_eq_spec e.status (h e (List.mem_filter.mp he).1)]

/-- C2.  The Scorer excludes pending entries from numerator and denominator,
weights the rest by criticality (HIGH 3, MEDIUM 2, LOW 1) and status value
(compliant and exempted 1, partially_compliant one half, non_compliant 0),
and returns the percentage rounded to the nearest integer, 0 when the
denominator is 0; in particular the HIGH-compliant plus LOW-non_compliant
example scores 75. -/
theorem scorer_weighted_average (entries : List ScoreEntry)
    (h : ∀ e ∈ entries, validStatus e.status = true ∧ validCriticality e.criticality = true) :
    calculateScoreRun entries =
      (if scoreDenominator entries = 0 then 0
       else round (specNumerator entries / scoreDenominator entries * 100))
    ∧ calculateScoreRun [⟨"r1", "compliant", "HIGH"⟩, ⟨"r2", "non_compliant", "LOW"⟩] = 75 := by
  constructor
  · rw [calculateScoreRun_formula, codeNumerator_eq_spec entries fun e he => (h e he).1]
  · simp [calculateScoreRun, scoreStep, statusValue, criticalityMultiplier, round_eq, Rat.floor_def]
    norm_num

/-- Witness for `scorer_weighted_average` at the spec's own 75-point example. -/
theorem scorer_weighted_average_witness :
    (∀ e ∈ ([⟨"r1", "compliant", "HIGH"⟩, ⟨"r2", "non_compliant", "LOW"⟩] : List ScoreEntry),
        validStatus e.status = true ∧ validCriticality e.criticality = true)
    ∧ calculateScoreRun [⟨"r1", "compliant", "HIGH"⟩, ⟨"r2", "non_compliant", "LOW"⟩] = 75 :=
  ⟨by decide,
   (scorer_weighted_average [⟨"r1", "compliant", "HIGH"⟩, ⟨"r2", "non_compliant", "LOW"⟩]
      (by decide)).2⟩

/-- C10.  The Scorer's result is invariant under permutation of its input
entries: both the numerator and the denominator are sums over the entries. -/
theorem scorer_permutation_invariant (l1 l2 : List ScoreEntry) (h : l1.Perm l2) :
    calculateScoreRun l1 = calculateScoreRun l2 := by
  rw [calculateScoreRun_formula, calculateScoreRun_formula]
  have hd : scoreDenominator l1 = scoreDenominator l2 := ((h.filter _).map _).sum_eq
  have hn : codeNumerator l1 = codeNumerator l2 := ((h.filter _).map _).sum_eq
  rw [hd, hn]

/-- Witness for `scorer_permutation_invariant` on a concrete two-entry swap. -/
theorem scorer_permutation_invariant_witness :
    ([⟨"a", "compliant", "HIGH"⟩, ⟨"b", "non_compliant", "LOW"⟩] : List ScoreEntry).Perm
        [⟨"b", "non_compliant", "LOW"⟩, ⟨"a", "compliant", "HIGH"⟩]
    ∧ calculateScoreRun [⟨"a", "compliant", "HIGH"⟩, ⟨"b", "non_compliant", "LOW"⟩] =
        calculateScoreRun [⟨"b", "non_compliant", "LOW"⟩, ⟨"a", "compliant", "HIGH"⟩] :=
  ⟨List.Perm.swap _ _ _, scorer_permutation_invariant _ _ (List.Perm.swap _ _ _)⟩

/-- C8 counterexample.  An entry whose criticality is CRITICAL is not scored
with default weight 1: the capability's zod schema rejects the request. -/
theorem scorer_unknown_criticality_rejected :
    calculateScoreCapability [⟨"r1", "compliant", "CRITICAL"⟩] = none := rfl

/-- C8 amended.  The scoring body's weight lookup does default an unknown
criticality to 1 and includes the entry, but the capability's input schema
admits only HIGH, MEDIUM and LOW, so a request containing such an entry is
rejected by validation and never reaches the scoring body. -/
theorem scorer_unknown_criticality_default_weight (c : String)
    (h1 : c ≠ "HIGH") (h2 : c ≠ "MEDIUM") (h3 : c ≠ "LOW") :
    criticalityMultiplier c = 1
    ∧ (∀ id s, s ≠ "pending" → calculateScoreRun [⟨id, s, c⟩] = round (statusValue s * 100))
    ∧ (∀ entries : List ScoreEntry, (∃ e ∈ entries, e.criticality = c) →
        calculateScoreCapability entries = none) := by
  have hm : criticalityMultiplier c = 1 := by
    unfold criticalityMultiplier
    rw [if_neg h1, if_neg h2, if_neg h3]
  refine ⟨hm, ?_, ?_⟩
  · intro id s hs
    simp [calculateScoreRun, scoreStep, hs, hm]
  · rintro entries ⟨e, he, hec⟩
    have hv : validCriticality e.criticality = false := by
      simp [validCriticality, hec, h1, h2, h3]
    have hall : (entries.all fun e => validStatus e.status && validCriticality e.criticality) = false := by
      cases hcase : entries.all fun e => validStatus e.status && validCriticality e.criticality with
      | false => rfl
      | true =>
        exfalso
        have := List.all_eq_true.mp hcase e he
        rw [hv] at this
        simp at this
    simp [calculateScoreCapability, hall]

/-- Witness for `scorer_unknown_criticality_default_weight` at criticality CRITICAL. -/
theorem scorer_unknown_criticality_default_weight_witness :
    criticalityMultiplier "CRITICAL" = 1
    ∧ calculateScoreRun [⟨"r1", "compliant", "CRITICAL"⟩] = round (statusValue "compliant" * 100)
    ∧ calculateScoreCapability [⟨"r1", "compliant", "CRITICAL"⟩] = none := by
  obtain ⟨ha, hb, hc⟩ :=
    scorer_unknown_criticality_default_weight "CRITICAL" (by decide) (by decide) (by decide)
  exact ⟨ha, hb "r1" "compliant" (by decide),
    hc _ ⟨⟨"r1", "compliant", "CRITICAL"⟩, by simp, rfl⟩⟩

/-- The requirement ids an audit-check id maps to; absent table keys map to
nothing (the finding is ignored). -/
def mappedIds (auditId : String) : List String := (lighthouseToEAAMapping auditId).getD []

/-- How many times the findings list tallies requirement `r` as compliant
(score exactly 1), counted per occurrence of `r` in the mapped id list. -/
def specCompliantCount (findings : List (String × LighthouseAudit)) (r : String) : Nat :=
  (findings.map fun p => if p.2.score = some 1 then (mappedIds p.1).count r else 0).sum

/-- How many times the findings list tallies requirement `r` as
non-compliant (score exactly 0). -/
def specNonCompliantCount (findings : List (String × LighthouseAudit)) (r : String) : Nat :=
  (findings.map fun p =>
    if p.2.score = some 1 then 0
    else if p.2.score = some 0 then (mappedIds p.1).count r
    else 0).sum

/-- How many times the findings list tallies requirement `r` as exempted
(any score other than 1 and 0, null included). -/
def specExemptedCount (findings : List (String × LighthouseAudit)) (r : String) : Nat :=
  (findings.map fun p =>
    if p.2.score = some 1 then 0
    else if p.2.score = some 0 then 0
    else (mappedIds p.1).count r).sum

/-- The three tally buckets of requirement `r`, stated as counts over the
findings list. -/
def specCounts (findings : List (String × LighthouseAudit)) (r : String) : StatusCounts :=
  ⟨specCompliantCount findings r, specNonCompliantCount findings r, specExemptedCount findings r⟩

/-- The total number of tallies of requirement `r`: the requirement has a
`statusCounts` entry exactly when this is positive. -/
def specTotalCount (findings : List (String × LighthouseAudit)) (r : String) : Nat :=
  specCompliantCount findings r + specNonCompliantCount findings r + specExemptedCount findings r

/-- Add `n` tallies for one audit of the given score to a bucket record,
selecting the bucket the way the code selects it. -/
def addBucket (score : Option ℚ) (n : Nat) (c : StatusCounts) : StatusCounts :=
  if score = some 1 then { c with compliant := c.compliant + n }
  else if score = some 0 then { c with non_compliant := c.non_compliant + n }
  else { c with exempted := c.exempted + n }

/-- Componentwise addition of bucket records. -/
def addCounts (a b : StatusCounts) : StatusCounts :=
  ⟨a.compliant + b.compliant, a.non_compliant + b.non_compliant, a.exempted + b.exempted⟩

lemma tallyOne_counts (audit : LighthouseAudit) (st : MapState) (a r : String) :
    (tallyOne audit st a).counts r =
      if r = a then some (addBucket audit.score 1 ((st.counts a).getD ⟨0, 0, 0⟩))
      else st.counts r := by
  unfold tallyOne addBucket
  by_cases h1 : audit.score = some 1
  · simp [h1]
  · by_cases h0 : audit.score = some 0 <;> simp [h1, h0]

lemma tallyOne_auditFix (audit : LighthouseAudit) (st : MapState) (a r : String) :
    (tallyOne audit st a).auditFix r =
      if audit.score = some 0 ∧ r = a then some audit else st.auditFix r := by
  unfold tallyOne
  by_cases h1 : audit.score = some 1
  · have h0 : ¬ audit.score = some 0 := by rw [h1]; simp
    simp [h1, h0]
  · by_cases h0 : audit.score = some 0 <;> simp [h1, h0]

lemma addBucket_addBucket (score : Option ℚ) (n m : Nat) (c : StatusCounts) :
    addBucket score m (addBucket score n c) = addBucket score (n + m) c := by
  unfold addBucket
  split_ifs <;> simp [Nat.add_assoc]

lemma inner_counts (audit : LighthouseAudit) (eaaIds : List String) :
    ∀ (st : MapState) (r : String),
      (eaaIds.foldl (tallyOne audit) st).counts r =
        if eaaIds.count r = 0 then st.counts r
        else some (addBucket audit.score (eaaIds.count r) ((st.counts r).getD ⟨0, 0, 0⟩)) := by
  induction eaaIds with
  | nil => intro st r; simp
  | cons a as ih =>
    intro st r
    rw [List.foldl_cons, ih]
    by_cases hra : r = a
    · rw [tallyOne_counts, if_pos hra, hra, List.count_cons_self]
      by_cases h0 : as.count a = 0
      · rw [if_pos h0, if_neg (by omega : ¬ as.count a + 1 = 0), h0]
      · rw [if_neg h0, Option.getD_some, addBucket_addBucket,
          if_neg (by omega : ¬ as.count a + 1 = 0), Nat.add_comm]
    · have hra2 : ¬ a = r := fun h => hra h.symm
      rw [tallyOne_counts, if_neg hra]
      have hcc : (a :: as).count r = as.count r := by
        simp [List.count_cons, beq_iff_eq, hra, hra2]
      rw [hcc]

lemma inner_auditFix (audit : LighthouseAudit) (eaaIds : List String) :
    ∀ (st : MapState) (r : String),
      (eaaIds.foldl (tallyOne audit) st).auditFix r =
        if audit.score = some 0 ∧ r ∈ eaaIds then some audit else st.auditFix r := by
  induction eaaIds with
  | nil => intro st r; simp
  | cons a as ih =>
    intro st r
    rw [List.foldl_cons, ih, tallyOne_auditFix]
    by_cases hs : audit.score = some 0
    · by_cases hm : r ∈ as
      · simp [hs, hm]
      · by_cases hra : r = a <;> simp [hs, hm, hra]
    · simp [hs]

lemma processAudit_counts (st : MapState) (p : String × LighthouseAudit) (r : String) :
    (processAudit st p).counts r =
      if (mappedIds p.1).count r = 0 then st.counts r
      else some (addBucket p.2.score ((mappedIds p.1).count r) ((st.counts r).getD ⟨0, 0, 0⟩)) := by
  unfold processAudit mappedIds
  cases h : lighthouseToEAAMapping p.1 with
  | none => simp
  | some ids => simp [inner_counts]

lemma processAudit_auditFix (st : MapState) (p : String × LighthouseAudit) (r : String) :
    (processAudit st p).auditFix r =
      if p.2.score = some 0 ∧ r ∈ mappedIds p.1 then some p.2 else st.auditFix r := by
  unfold processAudit mappedIds
  cases h : lighthouseToEAAMapping p.1 with
  | none => simp
  | some ids => simp [inner_auditFix]

lemma specCompliantCount_cons (p : String × LighthouseAudit)
    (fs : List (String × LighthouseAudit)) (r : String) :
    specCompliantCount (p :: fs) r =
      (if p.2.score = some 1 then (mappedIds p.1).count r else 0) + specCompliantCount fs r := by
  simp [specCompliantCount]

lemma specNonCompliantCount_cons (p : String × LighthouseAudit)
    (fs : List (String × LighthouseAudit)) (r : String) :
    specNonCompliantCount (p :: fs) r =
      (if p.2.score = some 1 then 0 else if p.2.score = some 0 then (mappedIds p.1).count r else 0)
        + specNonCompliantCount fs r := by
  simp [specNonCompliantCount]

lemma specExemptedCount_cons (p : String × LighthouseAudit)
    (fs : List (String × LighthouseAudit)) (r : String) :
    specExemptedCount (p :: fs) r =
      (if p.2.score = some 1 then 0 else if p.2.score = some 0 then 0 else (mappedIds p.1).count r)
        + specExemptedCount fs r := by
  simp [specExemptedCount]

lemma specTotalCount_cons (p : String × LighthouseAudit)
    (fs : List (String × LighthouseAudit)) (r : String) :
    specTotalCount (p :: fs) r = (mappedIds p.1).count r + specTotalCount fs r := by
  unfold specTotalCount
  rw [specCompliantCount_cons, specNonCompliantCount_cons, specExemptedCount_cons]
  by_cases h1 : p.2.score = some 1
  · simp [h1]; omega
  · by_cases h0 : p.2.score = some 0 <;> simp [h1, h0] <;> omega

lemma specCounts_eq_zero (fs : List (String × LighthouseAudit)) (r : String)
    (h : specTotalCount fs r = 0) : specCounts fs r = ⟨0, 0, 0⟩ := by
  unfold specTotalCount at h
  unfold specCounts
  have h1 : specCompliantCount fs r = 0 := by omega
  have h2 : specNonCompliantCount fs r = 0 := by omega
  have h3 : specExemptedCount fs r = 0 := by omega
  rw [h1, h2, h3]

lemma outer_counts (fs : List (String × LighthouseAudit)) :
    ∀ (st : MapState) (r : String),
      (fs.foldl processAudit st).counts r =
        if specTotalCount fs r = 0 then st.counts r
        else some (addCounts ((st.counts r).getD ⟨0, 0, 0⟩) (specCounts fs r)) := by
  induction fs with
  | nil =>
    intro st r
    simp [specTotalCount, specCompliantCount, specNonCompliantCount, specExemptedCount]
  | cons p fs ih =>
    intro st r
    rw [List.foldl_cons, ih, specTotalCount_cons]
    by_cases hk : (mappedIds p.1).count r = 0
    · have hcc : specCounts (p :: fs) r = specCounts fs r := by
        unfold specCounts
        rw [specCompliantCount_cons, specNonCompliantCount_cons, specExemptedCount_cons, hk]
        simp
      rw [processAudit_counts, if_pos hk, hk, Nat.zero_add, hcc]
    · have hbase : (processAudit st p).counts r =
          some (addBucket p.2.score ((mappedIds p.1).count r) ((st.counts r).getD ⟨0, 0, 0⟩)) := by
        rw [processAudit_counts, if_neg hk]
      rw [hbase]
      have htot : ¬ (mappedIds p.1).count r + specTotalCount fs r = 0 := by omega
      rw [if_neg htot, Option.getD_some]
      by_cases h0 : specTotalCount fs r = 0
      · rw [if_pos h0]
        have hcc := specCounts_eq_zero fs r h0
        unfold specCounts at hcc
        unfold specCounts addCounts addBucket
        rw [specCompliantCount_cons, specNonCompliantCount_cons, specExemptedCount_cons]
        have e1 : specCompliantCount fs r = 0 := congrArg StatusCounts.compliant hcc
        have e2 : specNonCompliantCount fs r = 0 := congrArg StatusCounts.non_compliant hcc
        have e3 : specExemptedCount fs r = 0 := congrArg StatusCounts.exempted hcc
        by_cases h1 : p.2.score = some 1
        · simp [h1, e1, e2, e3]
        · by_cases hz : p.2.score = some 0 <;> simp [h1, hz, e1, e2, e3]
      · rw [if_neg h0]
        unfold specCounts addCounts addBucket
        rw [specCompliantCount_cons, specNonCompliantCount_cons, specExemptedCount_cons]
        by_cases h1 : p.2.score = some 1
        · simp [h1]; omega
        · by_cases hz : p.2.score = some 0 <;> simp [h1, hz] <;> omega

/-- Does this finding qualify as a non-compliant contributor for
requirement `r`: its audit-check id maps to `r` and its score is 0. -/
def nonCompliantFor (r : String) (p : String × LighthouseAudit) : Bool :=
  decide (r ∈ mappedIds p.1) && decide (p.2.score = some 0)

/-- The last finding, in input iteration order, that contributes a
non-compliant tally to requirement `r`. -/
def lastNonCompliantFinding (findings : List (String × LighthouseAudit)) (r : String) :
    Option LighthouseAudit :=
  ((findings.filter (nonCompliantFor r)).map Prod.snd).getLast?

lemma getLast?_cons_form {α : Type} (x : α) (l : List α) :
    (x :: l).getLast? = some (l.getLast?.getD x) := by
  induction l generalizing x with
  | nil => rfl
  | cons y ys ih =>
    rw [List.getLast?_cons_cons, ih y]
    simp

lemma outer_auditFix (fs : List (String × LighthouseAudit)) :
    ∀ (st : MapState) (r : String),
      (fs.foldl processAudit st).auditFix r =
        match lastNonCompliantFinding fs r with
        | some a => some a
        | none => st.auditFix r := by
  induction fs with
  | nil => intro st r; simp [lastNonCompliantFinding]
  | cons p fs ih =>
    intro st r
    rw [List.foldl_cons, ih]
    by_cases hq : nonCompliantFor r p = true
    · have hql : p.2.score = some 0 ∧ r ∈ mappedIds p.1 := by
        have := hq
        unfold nonCompliantFor at this
        simp only [Bool.and_eq_true, decide_eq_true_eq] at this
        exact ⟨this.2, this.1⟩
      have hup : (processAudit st p).auditFix r = some p.2 := by
        rw [processAudit_auditFix, if_pos hql]
      have hlast : lastNonCompliantFinding (p :: fs) r =
          some ((lastNonCompliantFinding fs r).getD p.2) := by
        unfold lastNonCompliantFinding
        rw [List.filter_cons, if_pos hq, List.map_cons, getLast?_cons_form]
      rw [hup, hlast]
      cases hfs : lastNonCompliantFinding fs r with
      | some a => simp [hfs]
      | none => simp [hfs]
    · have hnq : ¬ (p.2.score = some 0 ∧ r ∈ mappedIds p.1) := by
        intro hc
        apply hq
        unfold nonCompliantFor
        simp only [Bool.and_eq_true, decide_eq_true_eq]
        exact ⟨hc.2, hc.1⟩
      have hup : (processAudit st p).auditFix r = st.auditFix r := by
        rw [processAudit_auditFix, if_neg hnq]
      have hlast : lastNonCompliantFinding (p :: fs) r = lastNonCompliantFinding fs r := by
        unfold lastNonCompliantFinding
        rw [List.filter_cons, if_neg hq]
      rw [hup, hlast]

lemma addCounts_zero_left (c : StatusCounts) : addCounts ⟨0, 0, 0⟩ c = c := by
  unfold addCounts
  simp

/-- C1.  The Mapper tallies every finding whose audit-check id is in the
static lookup table into per-requirement buckets (compliant for score 1,
non_compliant for score 0, exempted for any other score including null),
and rewrites the status of every requirement with at least one tally by the
priority rule partially_compliant, non_compliant, compliant, exempted,
while a requirement with no tally keeps its status; with an empty findings
map the checklist comes back unchanged, so every pending requirement stays
pending. -/
theorem mapper_tally_and_status (fs : List (String × LighthouseAudit)) (g : EAAGuidelines) :
    ((mapLighthouseToEAA fs g).1.requirements =
      g.requirements.map fun req =>
        if specTotalCount fs req.requirement_id = 0 then req
        else { req with status :=
          if 0 < specNonCompliantCount fs req.requirement_id ∧
              0 < specCompliantCount fs req.requirement_id then "partially_compliant"
          else if 0 < specNonCompliantCount fs req.requirement_id then "non_compliant"
          else if 0 < specCompliantCount fs req.requirement_id then "compliant"
          else "exempted" })
    ∧ (mapLighthouseToEAA [] g).1 = g := by
  constructor
  · unfold mapLighthouseToEAA
    simp only
    apply List.map_congr_left
    intro req hreq
    rw [outer_counts]
    by_cases ht : specTotalCount fs req.requirement_id = 0
    · rw [if_pos ht, if_pos ht]
      rfl
    · rw [if_neg ht, if_neg ht]
      simp only [initialMapState, Option.getD_none, addCounts_zero_left]
      simp [deriveStatus, specCounts]
  · obtain ⟨d, reqs⟩ := g
    simp [mapLighthouseToEAA, initialMapState]

/-- C3.  The Mapper returns a fresh checklist (the embedding is pure, as is
the deep-copied JavaScript original) with the same directive, the same
number of requirements in the same order, and each requirement equal to the
input one in every field except possibly `status`. -/
theorem mapper_preserves_checklist (fs : List (String × LighthouseAudit)) (g : EAAGuidelines) :
    (mapLighthouseToEAA fs g).1.directive = g.directive
    ∧ (mapLighthouseToEAA fs g).1.requirements.length = g.requirements.length
    ∧ List.Forall₂ (fun a b =>
        a.requirement_id = b.requirement_id ∧ a.description = b.description ∧
        a.category = b.category ∧ a.criticality = b.criticality ∧
        a.legal_reference = b.legal_reference ∧ a.exemptible = b.exemptible)
      g.requirements (mapLighthouseToEAA fs g).1.requirements := by
  refine ⟨rfl, ?_, ?_⟩
  · unfold mapLighthouseToEAA
    simp
  · unfold mapLighthouseToEAA
    simp only
    rw [List.forall₂_map_right_iff, List.forall₂_same]
    intro req hreq
    cases (List.foldl processAudit initialMapState fs).counts req.requirement_id <;> simp

/-- C5.  The `auditFix` output records, under each requirement id, exactly
the last finding in input iteration order that contributed a non_compliant
tally to that requirement (last write wins, no aggregation); in particular
whenever some finding contributes a non_compliant tally, a finding is
recorded. -/
theorem mapper_last_write_wins (fs : List (String × LighthouseAudit)) (g : EAAGuidelines)
    (r : String) :
    (mapLighthouseToEAA fs g).2 r = lastNonCompliantFinding fs r
    ∧ (0 < specNonCompliantCount fs r → (lastNonCompliantFinding fs r).isSome = true) := by
  constructor
  · unfold mapLighthouseToEAA
    simp only
    rw [outer_auditFix]
    cases h : lastNonCompliantFinding fs r <;> simp [initialMapState]
  · intro hpos
    by_contra hns
    have hnone : lastNonCompliantFinding fs r = none := by
      cases hc : lastNonCompliantFinding fs r with
      | none => rfl
      | some a => rw [hc] at hns; simp at hns
    have hfilter : fs.filter (nonCompliantFor r) = [] := by
      unfold lastNonCompliantFinding at hnone
      rcases hmap : (fs.filter (nonCompliantFor r)).map Prod.snd with _ | ⟨x, xs⟩
      · exact List.map_eq_nil_iff.mp hmap
      · rw [hmap, getLast?_cons_form] at hnone
        simp at hnone
    have hz : specNonCompliantCount fs r = 0 := by
      unfold specNonCompliantCount
      apply List.sum_eq_zero
      intro x hx
      obtain ⟨p, hp, rfl⟩ := List.mem_map.mp hx
      have hnp : nonCompliantFor r p = false := by
        cases hq : nonCompliantFor r p with
        | false => rfl
        | true =>
          have hmem : p ∈ fs.filter (nonCompliantFor r) := List.mem_filter.mpr ⟨hp, hq⟩
          rw [hfilter] at hmem
          simp at hmem
      by_cases h1 : p.2.score = some 1
      · simp [h1]
      · by_cases h0 : p.2.score = some 0
        · have hm : r ∉ mappedIds p.1 := by
            intro hmem
            unfold nonCompliantFor at hnp
            rw [decide_eq_true hmem, decide_eq_true h0] at hnp
            simp at hnp
          simp [h1, h0, List.count_eq_zero.mpr hm]
        · simp [h1, h0]
    omega

/-- Witness for `mapper_last_write_wins`: a single score-0 image-alt finding
is tallied for requirement A1.1 and recorded in the output. -/
theorem mapper_last_write_wins_witness :
    0 < specNonCompliantCount
        [("image-alt", ⟨"image-alt", "t", "d", some 0, "binary", none⟩)] "A1.1"
    ∧ (lastNonCompliantFinding
        [("image-alt", ⟨"image-alt", "t", "d", some 0, "binary", none⟩)] "A1.1").isSome = true :=
  ⟨by decide,
   (mapper_last_write_wins [("image-alt", ⟨"image-alt", "t", "d", some 0, "binary", none⟩)]
      ⟨"EAA", []⟩ "A1.1").2 (by decide)⟩

/-- C9.  The Mapper is a pure function of its two inputs: runs on equal
inputs give equal outputs, and nothing a first run does can influence a
second (there is no hidden mutable state in the embedding, mirroring the
function-local `statusCounts`/`auditFix` of the source). -/
theorem mapper_deterministic (fs1 fs2 : List (String × LighthouseAudit))
    (g1 g2 : EAAGuidelines) (hf : fs1 = fs2) (hg : g1 = g2) :
    mapLighthouseToEAA fs1 g1 = mapLighthouseToEAA fs2 g2 := by
  rw [hf, hg]

/-- Witness for `mapper_deterministic` on a concrete repeated run. -/
theorem mapper_deterministic_witness :
    mapLighthouseToEAA [("image-alt", ⟨"image-alt", "t", "d", some 1, "binary", none⟩)]
        ⟨"EAA", [⟨"A1.1", "d", "c", "HIGH", "l", "pending", false⟩]⟩ =
      mapLighthouseToEAA [("image-alt", ⟨"image-alt", "t", "d", some 1, "binary", none⟩)]
        ⟨"EAA", [⟨"A1.1", "d", "c", "HIGH", "l", "pending", false⟩]⟩ :=
  mapper_deterministic _ _ _ _ rfl rfl

lemma processRequirement_pending (af : String → Option LighthouseAudit)
    (acc : ReportSummary × List ActionableInsight) (req : EAARequirement)
    (acc2 : ReportSummary × List ActionableInsight)
    (h : processRequirement af acc req = Except.ok acc2) :
    acc2.1.pending_high_criticality = acc.1.pending_high_criticality ++
        (if req.status = "pending" ∧ req.criticality = "HIGH" then [req.requirement_id] else [])
    ∧ acc2.1.pending_medium_criticality = acc.1.pending_medium_criticality ++
        (if req.status = "pending" ∧ req.criticality = "MEDIUM" then [req.requirement_id] else []) := by
  simp only [processRequirement] at h
  by_cases hc : req.status = "compliant"
  · rw [if_pos hc] at h
    simp only [Except.ok.injEq] at h
    subst h
    refine ⟨?_, ?_⟩ <;> simp [hc]
  · rw [if_neg hc] at h
    by_cases hpn : req.status = "partially_compliant" ∨ req.status = "non_compliant"
    · rw [if_pos hpn] at h
      have hnp : ¬ req.status = "pending" := by
        rcases hpn with hx | hx <;> rw [hx] <;> decide
      cases hfd : af req.requirement_id with
      | none =>
        rw [hfd] at h
        simp at h
      | some fd =>
        cases hfi : fixItems fd with
        | some items =>
          by_cases hlen : 0 < items.length
          · simp only [hfd, hfi, if_pos hlen, Except.ok.injEq] at h
            subst h
            refine ⟨?_, ?_⟩ <;> simp [hnp]
          · simp only [hfd, hfi, if_neg hlen, Except.ok.injEq] at h
            subst h
            refine ⟨?_, ?_⟩ <;> simp [hnp]
        | none =>
          simp only [hfd, hfi, Except.ok.injEq] at h
          subst h
          refine ⟨?_, ?_⟩ <;> simp [hnp]
    · rw [if_neg hpn] at h
      by_cases hp : req.status = "pending"
      · rw [if_pos hp] at h
        by_cases hh : req.criticality = "HIGH"
        · rw [if_pos hh] at h
          simp only [Except.ok.injEq] at h
          subst h
          have hnm : ¬ req.criticality = "MEDIUM" := by rw [hh]; decide
          refine ⟨by simp [hp, hh], by simp [hnm]⟩
        · rw [if_neg hh] at h
          by_cases hm : req.criticality = "MEDIUM"
          · rw [if_pos hm] at h
            simp only [Except.ok.injEq] at h
            subst h
            refine ⟨by simp [hh], by simp [hp, hm]⟩
          · rw [if_neg hm] at h
            simp only [Except.ok.injEq] at h
            subst h
            refine ⟨by simp [hh], by simp [hm]⟩
      · rw [if_neg hp] at h
        simp only [Except.ok.injEq] at h
        subst h
        refine ⟨by simp [hp], by simp [hp]⟩

lemma foldlM_pending (af : String → Option LighthouseAudit) (reqs : List EAARequirement) :
    ∀ (acc res : ReportSummary × List ActionableInsight),
      reqs.foldlM (processRequirement af) acc = Except.ok res →
      res.1.pending_high_criticality = acc.1.pending_high_criticality ++
          (reqs.filter fun q => decide (q.status = "pending" ∧ q.criticality = "HIGH")).map
            (fun q => q.requirement_id)
      ∧ res.1.pending_medium_criticality = acc.1.pending_medium_criticality ++
          (reqs.filter fun q => decide (q.status = "pending" ∧ q.criticality = "MEDIUM")).map
            (fun q => q.requirement_id) := by
  induction reqs with
  | nil =>
    intro acc res h
    simp only [List.foldlM, pure, Except.pure, Except.ok.injEq] at h
    subst h
    simp
  | cons q qs ih =>
    intro acc res h
    simp only [List.foldlM] at h
    cases hstep : processRequirement af acc q with
    | error e =>
      rw [hstep] at h
      exact Except.noConfusion h
    | ok acc1 =>
      rw [hstep] at h
      obtain ⟨h1, h2⟩ := processRequirement_pending af acc q acc1 hstep
      obtain ⟨h3, h4⟩ := ih acc1 res h
      constructor
      · rw [h3, h1, List.filter_cons]
        by_cases hcond : q.status = "pending" ∧ q.criticality = "HIGH"
        · simp [hcond, List.append_assoc]
        · simp [hcond]
      · rw [h4, h2, List.filter_cons]
        by_cases hcond : q.status = "pending" ∧ q.criticality = "MEDIUM"
        · simp [hcond, List.append_assoc]
        · simp [hcond]

/-- C6.  When the Report Assembler succeeds, the two pending lists of the
report are exactly the ids of the pending HIGH-criticality requirements and
of the pending MEDIUM-criticality requirements, in checklist order; under
the data-model invariant that requirement ids are unique, a pending
LOW-criticality requirement appears in neither list. -/
theorem assembler_pending_lists (mr : MappedResultsRaw) (af : String → Option LighthouseAudit)
    (reqs : List EAARequirement) (report : Report)
    (h1 : mr.requirements = some reqs)
    (h2 : processResults (some mr) af = Except.ok report) :
    report.summary.pending_high_criticality =
      (reqs.filter fun q => decide (q.status = "pending" ∧ q.criticality = "HIGH")).map
        (fun q => q.requirement_id)
    ∧ report.summary.pending_medium_criticality =
      (reqs.filter fun q => decide (q.status = "pending" ∧ q.criticality = "MEDIUM")).map
        (fun q => q.requirement_id)
    ∧ (∀ req ∈ reqs, req.status = "pending" → req.criticality = "LOW" →
        (reqs.map fun q => q.requirement_id).Nodup →
        req.requirement_id ∉ report.summary.pending_high_criticality ∧
        req.requirement_id ∉ report.summary.pending_medium_criticality) := by
  simp only [processResults, h1] at h2
  cases hfold : reqs.foldlM (processRequirement af) (emptySummary, []) with
  | error e =>
    simp only [hfold] at h2
    exact Except.noConfusion h2
  | ok state =>
    simp only [hfold, Except.ok.injEq] at h2
    obtain ⟨hh, hm⟩ := foldlM_pending af reqs (emptySummary, []) state hfold
    have hrs : report.summary = state.1 := by rw [← h2]
    have hhigh : report.summary.pending_high_criticality =
        (reqs.filter fun q => decide (q.status = "pending" ∧ q.criticality = "HIGH")).map
          (fun q => q.requirement_id) := by
      rw [hrs, hh]
      simp [emptySummary]
    have hmed : report.summary.pending_medium_criticality =
        (reqs.filter fun q => decide (q.status = "pending" ∧ q.criticality = "MEDIUM")).map
          (fun q => q.requirement_id) := by
      rw [hrs, hm]
      simp [emptySummary]
    refine ⟨hhigh, hmed, ?_⟩
    intro req hreq hp hl hnodup
    constructor
    · rw [hhigh]
      intro hmem
      obtain ⟨q, hq, hqid⟩ := List.mem_map.mp hmem
      obtain ⟨hqmem, hqpred⟩ := List.mem_filter.mp hq
      have hqc : q.status = "pending" ∧ q.criticality = "HIGH" := of_decide_eq_true hqpred
      have hqr : q = req := List.inj_on_of_nodup_map hnodup hqmem hreq hqid
      rw [hqr, hl] at hqc
      exact absurd hqc.2 (by decide)
    · rw [hmed]
      intro hmem
      obtain ⟨q, hq, hqid⟩ := List.mem_map.mp hmem
      obtain ⟨hqmem, hqpred⟩ := List.mem_filter.mp hq
      have hqc : q.status = "pending" ∧ q.criticality = "MEDIUM" := of_decide_eq_true hqpred
      have hqr : q = req := List.inj_on_of_nodup_map hnodup hqmem hreq hqid
      rw [hqr, hl] at hqc
      exact absurd hqc.2 (by decide)

/-- Witness for `assembler_pending_lists` on a three-requirement checklist
with one pending requirement of each criticality. -/
theorem assembler_pending_lists_witness :
    (MappedResultsRaw.mk none (some
        [⟨"P1", "d", "c", "HIGH", "l", "pending", false⟩,
         ⟨"P2", "d", "c", "MEDIUM", "l", "pending", false⟩,
         ⟨"P3", "d", "c", "LOW", "l", "pending", false⟩])).requirements = some
        [⟨"P1", "d", "c", "HIGH", "l", "pending", false⟩,
         ⟨"P2", "d", "c", "MEDIUM", "l", "pending", false⟩,
         ⟨"P3", "d", "c", "LOW", "l", "pending", false⟩]
    ∧ ((Report.mk "Unknown Directive"
          [⟨"P1", "d", "c", "HIGH", "l", "pending"⟩,
           ⟨"P2", "d", "c", "MEDIUM", "l", "pending"⟩,
           ⟨"P3", "d", "c", "LOW", "l", "pending"⟩]
          ⟨[], [], ["P1"], ["P2"]⟩ []).summary.pending_high_criticality = ["P1"]
        ∧ (Report.mk "Unknown Directive"
          [⟨"P1", "d", "c", "HIGH", "l", "pending"⟩,
           ⟨"P2", "d", "c", "MEDIUM", "l", "pending"⟩,
           ⟨"P3", "d", "c", "LOW", "l", "pending"⟩]
          ⟨[], [], ["P1"], ["P2"]⟩ []).summary.pending_medium_criticality = ["P2"]) := by
  have h := assembler_pending_lists
    (MappedResultsRaw.mk none (some
        [⟨"P1", "d", "c", "HIGH", "l", "pending", false⟩,
         ⟨"P2", "d", "c", "MEDIUM", "l", "pending", false⟩,
         ⟨"P3", "d", "c", "LOW", "l", "pending", false⟩]))
    (fun _ => none)
    [⟨"P1", "d", "c", "HIGH", "l", "pending", false⟩,
     ⟨"P2", "d", "c", "MEDIUM", "l", "pending", false⟩,
     ⟨"P3", "d", "c", "LOW", "l", "pending", false⟩]
    (Report.mk "Unknown Directive"
        [⟨"P1", "d", "c", "HIGH", "l", "pending"⟩,
         ⟨"P2", "d", "c", "MEDIUM", "l", "pending"⟩,
         ⟨"P3", "d", "c", "LOW", "l", "pending"⟩]
        ⟨[], [], ["P1"], ["P2"]⟩ [])
    rfl rfl
  exact ⟨rfl, by rw [h.1]; rfl, by rw [h.2.1]; rfl⟩

/-- C4 evidence.  A requirement with status non_compliant for which the
findings-by-requirement map records no finding does not produce the
documented fallback summary entry and synthetic insight: the else branch of
the insight extraction reads `fixData.title` on an absent finding, so the
assembler throws a TypeError after pushing the summary entry and the whole
run produces no report at all. -/
theorem assembler_missing_finding_crashes :
    processResults
        (some ⟨none, some [⟨"A1.1", "desc", "cat", "HIGH", "ref", "non_compliant", false⟩]⟩)
        (fun _ => none) =
      Except.error "TypeError: Cannot read properties of undefined (reading 'title')" := rfl

/-- C7.  A checklist structure missing the required requirements array makes
each core operation surface an errored result with a descriptive message and
no partial output: the Report Assembler returns its validation error string,
and the Mapper's forEach over the missing array throws, yielding an error
and discarding everything built so far. -/
theorem missing_requirements_array_errors :
    (∀ af, processResults none af =
        Except.error "Error: 'requirements' field is missing or malformed.")
    ∧ (∀ d af, processResults (some ⟨d, none⟩) af =
        Except.error "Error: 'requirements' field is missing or malformed.")
    ∧ (∀ fs d, mapLighthouseToEAARaw fs ⟨d, none⟩ =
        Except.error "TypeError: Cannot read properties of undefined (reading 'forEach')") :=
  ⟨fun _ => rfl, fun _ _ => rfl, fun _ _ => rfl⟩
